import Mathlib

/-!
Verification development for the dtrader-crypto-2 core: the typed event bus
(`src/core/EventBus.ts`) and the lifecycle orchestrator
(`src/index.ts`, `src/core/TerminalManager.ts`).

The `EventBus` class extends Node's `EventEmitter`, so the embedding models
the relevant `EventEmitter` semantics exactly as documented and implemented
in Node's `events` module:
  * `emit` snapshots the listener list, then invokes each entry in
    registration order; an exception thrown by a listener propagates out of
    `emit` immediately (the remaining entries are not invoked);
  * `on` appends; when the new length exceeds the max-listeners ceiling and
    the kind has not warned before, a process warning is emitted (the
    registration itself always succeeds);
  * `once` appends a fresh wrapper object that removes itself from the live
    list immediately before invoking the wrapped callback;
  * `removeListener` (alias `off`) scans the list from the end and removes
    the last entry that is the given function or a wrapper of it;
  * `removeAllListeners` empties every list.
JavaScript function identity is modelled by natural numbers: `uid` is the
identity of the list entry itself (the function object for `on`, the fresh
wrapper for `once`) and `id` is the identity of the user callback
(`uid = id` for plain registrations; the wrapper's `.listener` for `once`).
-/

namespace EventBusModel

/-- Event kinds: the closed `AppEvents` enumeration of EventBus.ts plus the
EventEmitter-internal kinds (`error`, `newListener`, `removeListener`) used by
the bus's own bookkeeping in `setupErrorHandling`. -/
inductive EventKind
  | appStart | appStop | appError
  | terminalExit | terminalKey | terminalResize
  | configLoaded | configError
  | engineStart | engineStop | engineError
  | tradingSignal | tradingOrder | tradingPosition
  | error | newListener | removeListener
deriving DecidableEq, Repr

/-- The kinds belonging to the application-level `AppEvents` interface. -/
def EventKind.isAppEvent : EventKind → Bool
  | .error | .newListener | .removeListener => false
  | _ => true

/-- Enumeration of every event kind of the model (used by `eventNames`;
Node's own `eventNames` returns map keys in insertion order, which the model
abstracts to this fixed order — only membership and counts are used). -/
def allKinds : List EventKind :=
  [.appStart, .appStop, .appError, .terminalExit, .terminalKey,
   .terminalResize, .configLoaded, .configError, .engineStart, .engineStop,
   .engineError, .tradingSignal, .tradingOrder, .tradingPosition,
   .error, .newListener, .removeListener]

/-- An argument tuple carried by an event (payload contents are opaque to the
bus; it forwards them unchanged). -/
abbrev Args := List Nat

/-- One entry of a per-kind listener list.  `uid` is the JavaScript object
identity of the entry (the function itself for `on`, the fresh once-wrapper
for `once`), `id` the identity of the user callback, `once` whether the entry
is a once-wrapper, `throws` whether invoking the callback raises. -/
structure Registration where
  uid : Nat
  id : Nat
  once : Bool
  throws : Bool
deriving DecidableEq, Repr

/-- The state of one `EventBus` instance: per-kind listener lists, the
per-kind max-listeners warning flag, and the configured ceiling. -/
structure BusState where
  events : EventKind → List Registration
  warned : EventKind → Bool
  maxL : Nat

/-- `EventBus` constructor state after `setupErrorHandling` registered the
three bookkeeping listeners (`error`, `newListener`, `removeListener`); the
constructor default for the ceiling is 50. -/
def initBus (m : Nat) : BusState where
  events := fun k =>
    match k with
    | .error => [⟨0, 0, false, false⟩]
    | .newListener => [⟨1, 1, false, false⟩]
    | .removeListener => [⟨2, 2, false, false⟩]
    | _ => []
  warned := fun _ => false
  maxL := m

/-- Node `_addListener` as reached from `EventBus.onTyped` / `onceTyped`:
the entry is appended unconditionally; if the new length exceeds the
max-listeners ceiling and the kind has not warned before, a process warning
is emitted (returned boolean).  Registration never throws. -/
def addListener (s : BusState) (k : EventKind) (r : Registration) :
    BusState × Bool :=
  let evs := fun k' => if k' = k then s.events k' ++ [r] else s.events k'
  if 0 < s.maxL ∧ s.maxL < (s.events k).length + 1 ∧ s.warned k = false then
    (⟨evs, fun k' => if k' = k then true else s.warned k', s.maxL⟩, true)
  else
    (⟨evs, s.warned, s.maxL⟩, false)

/-- `EventBus.onTyped`: plain registration of callback `f`
(entry identity = callback identity). -/
def onTyped (s : BusState) (k : EventKind) (f : Nat) (throws : Bool) :
    BusState × Bool :=
  addListener s k ⟨f, f, false, throws⟩

/-- `EventBus.onceTyped`: registers a fresh once-wrapper `w` around
callback `f`. -/
def onceTyped (s : BusState) (k : EventKind) (w f : Nat) (throws : Bool) :
    BusState × Bool :=
  addListener s k ⟨w, f, true, throws⟩

/-- Remove the first entry satisfying `p`; the list is unchanged when no
entry matches. -/
def removeFirst (p : Registration → Bool) : List Registration → List Registration
  | [] => []
  | r :: rest => if p r then rest else r :: removeFirst p rest

/-- Node `removeListener` scans the list from the end and removes the last
matching entry; modelled as remove-first on the reversed list. -/
def removeLastM (p : Registration → Bool) (l : List Registration) :
    List Registration :=
  (removeFirst p l.reverse).reverse

/-- `EventBus.offTyped` (Node `removeListener`): removes the most recent
entry that is the callback `f` itself or a once-wrapper of `f`
(`list[i] === listener || list[i].listener === listener`), i.e. the last
entry with `id = f`; a no-op when none matches. -/
def offTyped (s : BusState) (k : EventKind) (f : Nat) : BusState :=
  { s with
    events := fun k' =>
      if k' = k then removeLastM (fun r => r.id == f) (s.events k')
      else s.events k' }

/-- A once-wrapper removing itself from the live list before invoking its
callback (Node `onceWrapper`; the wrapper object is matched by identity, so
removal is by `uid`). -/
def onceStrip (s : BusState) (k : EventKind) (r : Registration) : BusState :=
  if r.once then
    { s with
      events := fun k' =>
        if k' = k then removeLastM (fun q => q.uid == r.uid) (s.events k')
        else s.events k' }
  else s

/-- One observed listener invocation during a fan-out. -/
structure Invocation where
  uid : Nat
  id : Nat
  args : Args
deriving DecidableEq, Repr

/-- Run the snapshot of listeners taken by Node `emit`: each once-wrapper
first removes itself from the live list, then the callback runs with the
published arguments; a callback that throws aborts the iteration (Node
`emit` does not catch).  Returns (state, invocations in order, whether a
throw escaped `emit`). -/
def runListeners (k : EventKind) (args : Args) :
    List Registration → BusState → BusState × List Invocation × Bool
  | [], s => (s, [], false)
  | r :: rest, s =>
    let s1 := onceStrip s k r
    if r.throws then
      (s1, [⟨r.uid, r.id, args⟩], true)
    else
      ((runListeners k args rest s1).1,
       ⟨r.uid, r.id, args⟩ :: (runListeners k args rest s1).2.1,
       (runListeners k args rest s1).2.2)

/-- `EventBus.emitTyped`: calls Node `emit` inside try/catch.  `emit`
returns `false` when the kind has no handler (for the internal kind `error`
it would instead throw, which the catch in `emitTyped` turns into `false` as
well, leaving the state unchanged either way); otherwise it iterates a
snapshot of the listener list and returns `true`.  A throw escaping a
listener is caught by `emitTyped`, logged, and turned into `false`; it never
reaches the caller. -/
def emitTyped (s : BusState) (k : EventKind) (args : Args) :
    BusState × List Invocation × Bool :=
  if (s.events k).isEmpty then (s, [], false)
  else
    ((runListeners k args (s.events k) s).1,
     (runListeners k args (s.events k) s).2.1,
     !(runListeners k args (s.events k) s).2.2)

/-- A sequence of `emitTyped` calls on one kind, collecting all invocations. -/
def emitSeq (s : BusState) (k : EventKind) : List Args → BusState × List Invocation
  | [] => (s, [])
  | a :: rest =>
    ((emitSeq (emitTyped s k a).1 k rest).1,
     (emitTyped s k a).2.1 ++ (emitSeq (emitTyped s k a).1 k rest).2)

/-- `EventBus.cleanup`: `removeAllListeners()` empties every list. -/
def cleanup (s : BusState) : BusState :=
  { s with events := fun _ => [] }

/-- `EventBus.listenerCount` (inherited): live length of the kind's list. -/
def listenerCount (s : BusState) (k : EventKind) : Nat :=
  (s.events k).length

/-- Node `eventNames()`: the kinds that currently have at least one entry. -/
def eventNames (s : BusState) : List EventKind :=
  allKinds.filter (fun k => !(s.events k).isEmpty)

/-- `EventBus.getListenersInfo`: maps every name in `eventNames()` to its
live listener count. -/
def getListenersInfo (s : BusState) : List (EventKind × Nat) :=
  (eventNames s).map (fun k => (k, listenerCount s k))

/-- Number of entries with object identity `u` in a listener list. -/
def uidCount (u : Nat) (l : List Registration) : Nat :=
  l.countP (fun q => q.uid == u)

/-- Number of invocations of the entry with object identity `u` in a trace. -/
def invCount (u : Nat) (tr : List Invocation) : Nat :=
  tr.countP (fun i => i.uid == u)

theorem removeFirst_sublist (p : Registration → Bool) :
    ∀ l : List Registration, List.Sublist (removeFirst p l) l := by
  intro l
  induction l with
  | nil => exact List.Sublist.refl _
  | cons a t ih =>
    cases h : p a with
    | true =>
      simp only [removeFirst, h, if_true]
      exact List.sublist_cons_self a t
    | false =>
      simp only [removeFirst, h, Bool.false_eq_true, if_false]
      exact List.cons_sublist_cons.mpr ih

theorem removeLastM_sublist (p : Registration → Bool) (l : List Registration) :
    List.Sublist (removeLastM p l) l := by
  have h := (removeFirst_sublist p l.reverse).reverse
  rwa [List.reverse_reverse] at h

theorem removeFirst_of_none (p : Registration → Bool) :
    ∀ l : List Registration, (∀ x ∈ l, p x = false) → removeFirst p l = l := by
  intro l
  induction l with
  | nil => intro _; rfl
  | cons a t ih =>
    intro h
    have ha : p a = false := h a (List.mem_cons_self a t)
    simp [removeFirst, ha, ih fun x hx => h x (List.mem_cons_of_mem a hx)]

theorem removeLastM_of_none (p : Registration → Bool) (l : List Registration)
    (h : ∀ x ∈ l, p x = false) : removeLastM p l = l := by
  unfold removeLastM
  rw [removeFirst_of_none p _ fun x hx => h x (List.mem_reverse.mp hx),
    List.reverse_reverse]

theorem removeFirst_append_none (p : Registration → Bool) :
    ∀ l1 l2 : List Registration, (∀ x ∈ l1, p x = false) →
      removeFirst p (l1 ++ l2) = l1 ++ removeFirst p l2 := by
  intro l1
  induction l1 with
  | nil => intro l2 _; rfl
  | cons a t ih =>
    intro l2 h
    have ha : p a = false := h a (List.mem_cons_self a t)
    simp [removeFirst, ha, ih l2 fun x hx => h x (List.mem_cons_of_mem a hx)]

/-- Removing the last matching entry from `pre ++ r :: post`, where `r`
matches and nothing in `post` does, yields `pre ++ post`. -/
theorem removeLastM_split (p : Registration → Bool)
    (pre post : List Registration) (r : Registration)
    (hr : p r = true) (hpost : ∀ x ∈ post, p x = false) :
    removeLastM p (pre ++ r :: post) = pre ++ post := by
  unfold removeLastM
  rw [List.reverse_append, List.reverse_cons, List.append_assoc,
    removeFirst_append_none p _ _ fun x hx => hpost x (List.mem_reverse.mp hx)]
  have hstep : removeFirst p ([r] ++ pre.reverse) = pre.reverse := by
    simp [removeFirst, hr]
  rw [hstep, List.reverse_append, List.reverse_reverse, List.reverse_reverse]

theorem countP_removeFirst_self (p : Registration → Bool) :
    ∀ l : List Registration, l.countP p ≤ 1 → (removeFirst p l).countP p = 0 := by
  intro l
  induction l with
  | nil => intro _; rfl
  | cons a t ih =>
    intro h
    cases ha : p a with
    | true =>
      simp only [List.countP_cons, ha, if_true] at h
      simp only [removeFirst, ha, if_true]
      omega
    | false =>
      simp only [List.countP_cons, ha, Bool.false_eq_true, if_false,
        Nat.add_zero] at h
      simp only [removeFirst, ha, Bool.false_eq_true, if_false]
      rw [List.countP_cons, ha]
      simpa using ih h

theorem countP_removeLastM_self (p : Registration → Bool) (l : List Registration)
    (h : l.countP p ≤ 1) : (removeLastM p l).countP p = 0 := by
  have h2 : l.reverse.countP p ≤ 1 := by rwa [List.countP_reverse]
  have h3 := countP_removeFirst_self p l.reverse h2
  unfold removeLastM
  rwa [List.countP_reverse]

theorem countP_removeFirst_other (p q : Registration → Bool)
    (hpq : ∀ x, p x = true → q x = false) :
    ∀ l : List Registration, (removeFirst p l).countP q = l.countP q := by
  intro l
  induction l with
  | nil => rfl
  | cons a t ih =>
    cases ha : p a with
    | true =>
      have hqa : q a = false := hpq a ha
      simp [removeFirst, ha, List.countP_cons, hqa]
    | false =>
      simp [removeFirst, ha, List.countP_cons, ih]

theorem countP_removeLastM_other (p q : Registration → Bool)
    (hpq : ∀ x, p x = true → q x = false) (l : List Registration) :
    (removeLastM p l).countP q = l.countP q := by
  unfold removeLastM
  rw [List.countP_reverse, countP_removeFirst_other p q hpq, List.countP_reverse]

theorem onceStrip_events_sub (s : BusState) (k : EventKind) (r : Registration) :
    List.Sublist ((onceStrip s k r).events k) (s.events k) := by
  cases ho : r.once with
  | true => simpa [onceStrip, ho] using removeLastM_sublist _ (s.events k)
  | false => simp [onceStrip, ho]

theorem runListeners_events_sub (k : EventKind) (args : Args) :
    ∀ (l : List Registration) (s : BusState),
      List.Sublist ((runListeners k args l s).1.events k) (s.events k) := by
  intro l
  induction l with
  | nil => intro s; exact List.Sublist.refl _
  | cons r rest ih =>
    intro s
    cases ht : r.throws with
    | true => simpa [runListeners, ht] using onceStrip_events_sub s k r
    | false =>
      simpa [runListeners, ht] using
        (ih (onceStrip s k r)).trans (onceStrip_events_sub s k r)

theorem runListeners_invCount_le (k : EventKind) (args : Args) (u : Nat) :
    ∀ (l : List Registration) (s : BusState),
      invCount u (runListeners k args l s).2.1 ≤ uidCount u l := by
  intro l
  induction l with
  | nil => intro s; simp [runListeners, invCount]
  | cons r rest ih =>
    intro s
    have h := ih (onceStrip s k r)
    cases ht : r.throws with
    | true =>
      simp only [runListeners, ht, if_true, invCount, uidCount,
        List.countP_cons, List.countP_nil]
      omega
    | false =>
      simp only [runListeners, ht, Bool.false_eq_true, if_false, invCount,
        uidCount, List.countP_cons]
      simp only [invCount, uidCount] at h
      omega

theorem runListeners_nothrow (k : EventKind) (args : Args) :
    ∀ (l : List Registration) (s : BusState),
      (∀ r ∈ l, r.throws = false) →
      (runListeners k args l s).2.1 =
        l.map (fun r => ⟨r.uid, r.id, args⟩) ∧
      (runListeners k args l s).2.2 = false := by
  intro l
  induction l with
  | nil => intro s _; simp [runListeners]
  | cons r rest ih =>
    intro s h
    have hr : r.throws = false := h r (List.mem_cons_self r rest)
    have hrest := ih (onceStrip s k r)
      fun q hq => h q (List.mem_cons_of_mem r hq)
    simp [runListeners, hr, hrest.1, hrest.2]

theorem runListeners_throw (k : EventKind) (args : Args) (r : Registration)
    (hr : r.throws = true) :
    ∀ (l1 l2 : List Registration) (s : BusState),
      (∀ q ∈ l1, q.throws = false) →
      (runListeners k args (l1 ++ r :: l2) s).2.1 =
        (l1 ++ [r]).map (fun q => ⟨q.uid, q.id, args⟩) ∧
      (runListeners k args (l1 ++ r :: l2) s).2.2 = true := by
  intro l1
  induction l1 with
  | nil => intro l2 s _; simp [runListeners, hr]
  | cons a t ih =>
    intro l2 s h
    have ha : a.throws = false := h a (List.mem_cons_self a t)
    have ht := ih l2 (onceStrip s k a)
      fun q hq => h q (List.mem_cons_of_mem a hq)
    simp [runListeners, ha, ht.1, ht.2]

theorem uidCount_onceStrip_self (s : BusState) (k : EventKind)
    (r : Registration) (hu : uidCount r.uid (s.events k) ≤ 1)
    (ho : r.once = true) :
    uidCount r.uid ((onceStrip s k r).events k) = 0 := by
  simp only [onceStrip, ho, if_true]
  exact countP_removeLastM_self _ _ hu

theorem uidCount_onceStrip_other (s : BusState) (k : EventKind)
    (r : Registration) (u : Nat) (hne : r.uid ≠ u) :
    uidCount u ((onceStrip s k r).events k) = uidCount u (s.events k) := by
  cases ho : r.once with
  | false => simp [onceStrip, ho]
  | true =>
    simp only [onceStrip, ho, if_true]
    exact countP_removeLastM_other _ _
      (fun x hx => by
        have hxu : x.uid = r.uid := by simpa using hx
        simp [hxu, hne]) (s.events k)

theorem runListeners_once (k : EventKind) (args : Args) (u : Nat) :
    ∀ (l : List Registration) (s : BusState),
      uidCount u l ≤ 1 →
      (∀ q ∈ l, q.uid = u → q.once = true) →
      uidCount u (s.events k) ≤ uidCount u l →
      invCount u (runListeners k args l s).2.1 +
        uidCount u ((runListeners k args l s).1.events k) ≤ 1 := by
  intro l
  induction l with
  | nil =>
    intro s h1 _ h3
    simp only [uidCount, List.countP_nil, Nat.le_zero] at h3
    simp [runListeners, invCount, uidCount, h3]
  | cons r rest ih =>
    intro s h1 h2 h3
    simp only [uidCount, List.countP_cons] at h1 h3
    by_cases hu : r.uid = u
    · have ho : r.once = true := h2 r (List.mem_cons_self r rest) hu
      have hbeq : (r.uid == u) = true := by simp [hu]
      simp only [hbeq, if_true] at h1 h3
      have hrest0 : List.countP (fun q => q.uid == u) rest = 0 := by omega
      have hs1 : uidCount u ((onceStrip s k r).events k) = 0 := by
        rw [← hu]
        refine uidCount_onceStrip_self s k r ?_ ho
        simp only [uidCount, hu]
        omega
      simp only [uidCount] at hs1
      cases ht : r.throws with
      | true =>
        simp only [runListeners, ht, if_true, invCount, List.countP_cons,
          List.countP_nil, uidCount, hbeq, if_true]
        omega
      | false =>
        have hrec_inv :=
          runListeners_invCount_le k args u rest (onceStrip s k r)
        simp only [invCount, uidCount, hrest0, Nat.le_zero] at hrec_inv
        have hsub :=
          (runListeners_events_sub k args rest (onceStrip s k r)).countP_le
            (p := fun q => q.uid == u)
        simp only [runListeners, ht, Bool.false_eq_true, if_false, invCount,
          List.countP_cons, uidCount, hbeq, if_true]
        omega
    · have hbeq : (r.uid == u) = false := by simp [hu]
      simp only [hbeq, Bool.false_eq_true, if_false, Nat.add_zero] at h1 h3
      have hs1 : uidCount u ((onceStrip s k r).events k) =
          uidCount u (s.events k) :=
        uidCount_onceStrip_other s k r u hu
      simp only [uidCount] at hs1
      cases ht : r.throws with
      | true =>
        simp only [runListeners, ht, if_true, invCount, List.countP_cons,
          List.countP_nil, uidCount, hbeq, Bool.false_eq_true, if_false]
        omega
      | false =>
        have hrec := ih (onceStrip s k r)
          (by simp only [uidCount]; omega)
          (fun q hq hq2 => h2 q (List.mem_cons_of_mem r hq) hq2)
          (by simp only [uidCount]; omega)
        simp only [invCount, uidCount] at hrec
        simp only [runListeners, ht, Bool.false_eq_true, if_false, invCount,
          List.countP_cons, uidCount, hbeq, Bool.false_eq_true, if_false]
        omega

theorem emitTyped_events_sub (s : BusState) (k : EventKind) (a : Args) :
    List.Sublist ((emitTyped s k a).1.events k) (s.events k) := by
  unfold emitTyped
  cases he : (s.events k).isEmpty with
  | true => simp [he]
  | false =>
    simp only [he, Bool.false_eq_true, if_false]
    exact runListeners_events_sub k a (s.events k) s

theorem emitTyped_invCount_le (s : BusState) (k : EventKind) (a : Args)
    (u : Nat) :
    invCount u (emitTyped s k a).2.1 ≤ uidCount u (s.events k) := by
  unfold emitTyped
  cases he : (s.events k).isEmpty with
  | true => simp [he, invCount, uidCount]
  | false =>
    simp only [he, Bool.false_eq_true, if_false]
    exact runListeners_invCount_le k a u (s.events k) s

theorem emitTyped_uidCount_le (s : BusState) (k : EventKind) (a : Args)
    (u : Nat) :
    uidCount u ((emitTyped s k a).1.events k) ≤ uidCount u (s.events k) := by
  simp only [uidCount]
  exact (emitTyped_events_sub s k a).countP_le _

theorem emitSeq_zero (k : EventKind) (u : Nat) :
    ∀ (calls : List Args) (s : BusState),
      uidCount u (s.events k) = 0 →
      invCount u (emitSeq s k calls).2 = 0 ∧
      uidCount u ((emitSeq s k calls).1.events k) = 0 := by
  intro calls
  induction calls with
  | nil => intro s h; exact ⟨by simp [emitSeq, invCount], by simpa [emitSeq]⟩
  | cons a rest ih =>
    intro s h
    have h1 : invCount u (emitTyped s k a).2.1 = 0 :=
      Nat.le_zero.mp (h ▸ emitTyped_invCount_le s k a u)
    have h2 : uidCount u ((emitTyped s k a).1.events k) = 0 :=
      Nat.le_zero.mp (h ▸ emitTyped_uidCount_le s k a u)
    have h3 := ih (emitTyped s k a).1 h2
    constructor
    · simp only [emitSeq, invCount, List.countP_append]
      simp only [invCount] at h1 h3
      omega
    · simpa [emitSeq] using h3.2

theorem emitTyped_once (s : BusState) (k : EventKind) (a : Args) (u : Nat)
    (h1 : uidCount u (s.events k) ≤ 1)
    (h2 : ∀ q ∈ s.events k, q.uid = u → q.once = true) :
    invCount u (emitTyped s k a).2.1 +
      uidCount u ((emitTyped s k a).1.events k) ≤ 1 := by
  unfold emitTyped
  cases he : (s.events k).isEmpty with
  | true =>
    simp only [he, if_true]
    simp only [invCount, List.countP_nil, Nat.zero_add]
    exact h1
  | false =>
    simp only [he, Bool.false_eq_true, if_false]
    exact runListeners_once k a u (s.events k) s h1 h2 (Nat.le_refl _)

theorem emitSeq_once (k : EventKind) (u : Nat) :
    ∀ (calls : List Args) (s : BusState),
      uidCount u (s.events k) ≤ 1 →
      (∀ q ∈ s.events k, q.uid = u → q.once = true) →
      invCount u (emitSeq s k calls).2 ≤ 1 := by
  intro calls
  induction calls with
  | nil => intro s _ _; simp [emitSeq, invCount]
  | cons a rest ih =>
    intro s h1 h2
    have hstep := emitTyped_once s k a u h1 h2
    have hpres : ∀ q ∈ (emitTyped s k a).1.events k, q.uid = u →
        q.once = true :=
      fun q hq => h2 q ((emitTyped_events_sub s k a).subset hq)
    by_cases hz : invCount u (emitTyped s k a).2.1 = 0
    · have hrec := ih (emitTyped s k a).1 (by omega) hpres
      simp only [emitSeq, invCount, List.countP_append]
      simp only [invCount] at hz hrec
      omega
    · have hs1 : uidCount u ((emitTyped s k a).1.events k) = 0 := by omega
      have hrec := (emitSeq_zero k u rest (emitTyped s k a).1 hs1).1
      simp only [emitSeq, invCount, List.countP_append]
      simp only [invCount] at hrec hstep
      omega

theorem eq_of_countP_eq_one (p : Registration → Bool) (l : List Registration)
    (h : l.countP p = 1) (r q : Registration) (hr : r ∈ l) (hpr : p r = true)
    (hq : q ∈ l) (hpq : p q = true) : q = r := by
  rw [List.countP_eq_length_filter] at h
  obtain ⟨x, hx⟩ := List.length_eq_one.mp h
  have h1 : r ∈ l.filter p := List.mem_filter.mpr ⟨hr, hpr⟩
  have h2 : q ∈ l.filter p := List.mem_filter.mpr ⟨hq, hpq⟩
  rw [hx] at h1 h2
  simp only [List.mem_singleton] at h1 h2
  rw [h1, h2]

/-! ### Claim theorems about the event bus -/

/-- C1: for every event kind and every registered listener list (whose
callbacks do not throw; a throwing listener is the subject of C2),
`emitTyped` invokes every registered listener exactly once, in registration
order, with exactly the published argument tuple, and returns `true` iff at
least one listener was registered; for a kind with zero registrations it is
a no-op that returns `false` and never throws (`emitTyped` is total and
catches the only possible throw). -/
theorem emitTyped_fanout (s : BusState) (k : EventKind) (args : Args)
    (hnt : ∀ r ∈ s.events k, r.throws = false) :
    (emitTyped s k args).2.1 =
      (s.events k).map (fun r => ⟨r.uid, r.id, args⟩) ∧
    ((emitTyped s k args).2.2 = true ↔ s.events k ≠ []) ∧
    (s.events k = [] →
      (emitTyped s k args).1 = s ∧ (emitTyped s k args).2.1 = []) := by
  have h := runListeners_nothrow k args (s.events k) s hnt
  cases hev : s.events k with
  | nil =>
    rw [hev] at h
    refine ⟨?_, ?_, fun _ => ⟨?_, ?_⟩⟩ <;> simp [emitTyped, hev]
  | cons a t =>
    rw [hev] at h
    refine ⟨?_, ?_, fun hc => absurd hc (List.cons_ne_nil a t)⟩
    · simpa [emitTyped, hev] using h.1
    · simp [emitTyped, hev, h.2]

/-- Concrete bus for the specification's resize scenario: two listeners
registered for terminal:resize, in this order. -/
def demoBus : BusState where
  events := fun k =>
    if k = EventKind.terminalResize then
      [⟨8, 8, false, false⟩, ⟨9, 9, false, false⟩]
    else []
  warned := fun _ => false
  maxL := 50

/-- Witness for C1 at the spec scenario: publishing terminal:resize (80, 24)
invokes both listeners once, in registration order, with (80, 24), and
returns true. -/
theorem emitTyped_fanout_witness :
    (demoBus.events .terminalResize).all (fun r => !r.throws) = true ∧
    (emitTyped demoBus .terminalResize [80, 24]).2.1 =
      [⟨8, 8, [80, 24]⟩, ⟨9, 9, [80, 24]⟩] ∧
    (emitTyped demoBus .terminalResize [80, 24]).2.2 = true := by
  have h := emitTyped_fanout demoBus .terminalResize [80, 24] (by decide)
  exact ⟨by decide, by rw [h.1]; decide, h.2.1.mpr (by decide)⟩

/-- Bus whose first terminal:resize listener throws and whose second does
not. -/
def throwBus : BusState where
  events := fun k =>
    if k = EventKind.terminalResize then
      [⟨10, 10, false, true⟩, ⟨11, 11, false, false⟩]
    else []
  warned := fun _ => false
  maxL := 50

/-- C2 counterexample: when the first listener throws during `emitTyped`,
the listener registered after it is NOT invoked (Node `emit` aborts the
fan-out; the try/catch sits around the whole `emit` call, not around each
listener), contradicting the claim that every later listener is still
invoked.  The exception itself does not reach the caller: the call returns
`false`. -/
theorem emitTyped_throw_skips_rest :
    (emitTyped throwBus .terminalResize [80, 24]).2.1 =
      [⟨10, 10, [80, 24]⟩] ∧
    (∀ i ∈ (emitTyped throwBus .terminalResize [80, 24]).2.1, i.uid ≠ 11) ∧
    (emitTyped throwBus .terminalResize [80, 24]).2.2 = false := by decide

/-- C2 amended: if a listener throws during `emitTyped`, the exception does
not propagate to the caller (the call returns `false`), the listeners
registered before the throwing one and the throwing one itself are invoked
in order, but the listeners registered after it are not invoked. -/
theorem emitTyped_throw_isolation (s : BusState) (k : EventKind) (args : Args)
    (l1 l2 : List Registration) (r : Registration)
    (hsplit : s.events k = l1 ++ r :: l2)
    (h1 : ∀ q ∈ l1, q.throws = false) (hr : r.throws = true) :
    (emitTyped s k args).2.1 =
      (l1 ++ [r]).map (fun q => ⟨q.uid, q.id, args⟩) ∧
    (emitTyped s k args).2.2 = false := by
  have h := runListeners_throw k args r hr l1 l2 s h1
  have hne : (s.events k).isEmpty = false := by
    rw [hsplit]; cases l1 <;> rfl
  rw [← hsplit] at h
  constructor
  · simp only [emitTyped, hne, Bool.false_eq_true, if_false]
    exact h.1
  · simp only [emitTyped, hne, Bool.false_eq_true, if_false, h.2,
      Bool.not_true]

/-- Witness for the amended C2 on `throwBus`: the thrower is invoked, the
later listener is not, and the publisher sees `false`, not an exception. -/
theorem emitTyped_throw_isolation_witness :
    (emitTyped throwBus .terminalResize [80, 24]).2.1 =
      [⟨10, 10, [80, 24]⟩] ∧
    (emitTyped throwBus .terminalResize [80, 24]).2.2 = false := by
  have h := emitTyped_throw_isolation throwBus .terminalResize [80, 24]
    [] [⟨11, 11, false, false⟩] ⟨10, 10, false, true⟩
    (by decide) (by decide) (by decide)
  exact ⟨by rw [h.1]; decide, h.2⟩

/-- C7: `offTyped` removes the most recent matching registration and is a
no-op when the listener is not registered; once removed, the registration
is never invoked by subsequent publishes of that kind; and a `onceTyped`
registration is invoked at most once across any number of publishes. -/
theorem offTyped_onceTyped_spec (s : BusState) (k : EventKind) (f : Nat)
    (pre post : List Registration) (r : Registration) (calls : List Args) :
    ((∀ q ∈ s.events k, q.id ≠ f) →
      ∀ k', (offTyped s k f).events k' = s.events k') ∧
    (s.events k = pre ++ r :: post → r.id = f → (∀ q ∈ post, q.id ≠ f) →
      (offTyped s k f).events k = pre ++ post ∧
      (uidCount r.uid (pre ++ post) = 0 →
        invCount r.uid (emitSeq (offTyped s k f) k calls).2 = 0)) ∧
    (r ∈ s.events k → r.once = true → uidCount r.uid (s.events k) = 1 →
      invCount r.uid (emitSeq s k calls).2 ≤ 1) := by
  refine ⟨?_, ?_, ?_⟩
  · intro hnone k'
    by_cases hk : k' = k
    · subst hk
      simp only [offTyped, if_true]
      exact removeLastM_of_none _ _ fun x hx => by
        simpa using hnone x hx
    · simp [offTyped, hk]
  · intro hsplit hid hpost
    have hrem : (offTyped s k f).events k = pre ++ post := by
      simp only [offTyped, if_true]
      rw [hsplit]
      exact removeLastM_split _ pre post r (by simp [hid])
        fun x hx => by simpa using hpost x hx
    refine ⟨hrem, fun hzero => ?_⟩
    exact (emitSeq_zero k r.uid calls (offTyped s k f)
      (hrem ▸ hzero)).1
  · intro hmem honce hone
    refine emitSeq_once k r.uid calls s (Nat.le_of_eq hone) ?_
    intro q hq hqu
    have : q = r := by
      refine eq_of_countP_eq_one (fun q => q.uid == r.uid) (s.events k) ?_
        r q hmem (by simp) hq (by simp [hqu])
      simpa [uidCount] using hone
    rw [this]
    exact honce

/-- Bus used by the C7 witness: two plain terminal:resize listeners (5 then
6) and one once-wrapper (identity 7) around callback 3. -/
def offBus : BusState where
  events := fun k =>
    if k = EventKind.terminalResize then
      [⟨5, 5, false, false⟩, ⟨7, 3, true, false⟩, ⟨6, 6, false, false⟩]
    else []
  warned := fun _ => false
  maxL := 50

/-- Witness for C7: unsubscribing listener 5 removes exactly its entry; two
publishes of terminal:resize never invoke the removed entry; and the
once-wrapper 7 fires at most once across the two publishes. -/
theorem offTyped_onceTyped_spec_witness :
    (offTyped offBus .terminalResize 5).events .terminalResize =
      [⟨7, 3, true, false⟩, ⟨6, 6, false, false⟩] ∧
    invCount 5
      (emitSeq (offTyped offBus .terminalResize 5) .terminalResize
        [[80, 24], [80, 24]]).2 = 0 ∧
    invCount 7 (emitSeq offBus .terminalResize [[80, 24], [80, 24]]).2 ≤ 1 := by
  have h := offTyped_onceTyped_spec offBus .terminalResize 5
    [] [⟨7, 3, true, false⟩, ⟨6, 6, false, false⟩] ⟨5, 5, false, false⟩
    [[80, 24], [80, 24]]
  have h2 := h.2.1 (by decide) (by decide) (by decide)
  have h3 := offTyped_onceTyped_spec offBus .terminalResize 5
    [] [] ⟨7, 3, true, false⟩ [[80, 24], [80, 24]]
  exact ⟨h2.1, h2.2 (by decide), h3.2.2 (by decide) (by decide) (by decide)⟩

/-- C8: registering a listener that makes the count for a kind exceed the
max-listeners ceiling still succeeds: the entry is appended and counted and
nothing is thrown (`addListener` is total); the only effect of the overflow
is a diagnostic warning. -/
theorem onTyped_ceiling (s : BusState) (k : EventKind) (f : Nat) (t : Bool)
    (hover : s.maxL < (s.events k).length + 1) (hm : 0 < s.maxL)
    (hw : s.warned k = false) :
    (onTyped s k f t).1.events k = s.events k ++ [⟨f, f, false, t⟩] ∧
    listenerCount (onTyped s k f t).1 k = listenerCount s k + 1 ∧
    (onTyped s k f t).2 = true := by
  simp only [onTyped, addListener, hover, hm, hw, and_self, if_true,
    listenerCount]
  simp

/-- Bus with 50 terminal:key listeners, at the default ceiling of 50. -/
def fullBus : BusState where
  events := fun k =>
    if k = EventKind.terminalKey then
      List.replicate 50 ⟨4, 4, false, false⟩
    else []
  warned := fun _ => false
  maxL := 50

/-- Witness for C8: the 51st registration on a kind with the default
ceiling of 50 is still appended (the count reaches 51) and only a warning
is emitted. -/
theorem onTyped_ceiling_witness :
    fullBus.maxL = 50 ∧
    listenerCount fullBus .terminalKey = 50 ∧
    listenerCount (onTyped fullBus .terminalKey 9 false).1 .terminalKey = 51 ∧
    (onTyped fullBus .terminalKey 9 false).2 = true := by
  have h := onTyped_ceiling fullBus .terminalKey 9 false
    (by decide) (by decide) (by decide)
  exact ⟨by decide, by decide, by rw [h.2.1]; decide, h.2.2⟩

/-- C10: a freshly constructed bus (default ceiling 50) with no application
subscriptions already has the three internal bookkeeping registrations, so
`getListenersInfo` is non-empty and includes the internal kinds `error`,
`newListener` and `removeListener`, even though every application kind
counts zero listeners. -/
theorem initBus_introspection :
    getListenersInfo (initBus 50) ≠ [] ∧
    (EventKind.error, 1) ∈ getListenersInfo (initBus 50) ∧
    (EventKind.newListener, 1) ∈ getListenersInfo (initBus 50) ∧
    (EventKind.removeListener, 1) ∈ getListenersInfo (initBus 50) ∧
    (allKinds.filter (fun k => k.isAppEvent)).all
      (fun k => listenerCount (initBus 50) k == 0) = true ∧
    (getListenersInfo (initBus 50)).any (fun p => !p.1.isAppEvent) = true := by
  decide

end EventBusModel

/-!
### Lifecycle orchestrator model

Shallow embedding of `DTraderCrypto` (src/index.ts) wired to
`TerminalManager` (src/core/TerminalManager.ts) and the shared bus, as
assembled by the constructors: the `TerminalManager` is constructed first,
so for every kind its handlers sit before `DTraderCrypto`'s in the
registration order.  Per kind the fan-out is therefore
  app:start      → TM.handleAppStart, App.handleAppStart
  app:stop       → TM.handleAppStop,  App.handleAppStop
  terminal:exit  → TM.handleExit,     App.handleExit
  app:error      → App.handleAppError
  terminal:key   → App.handleTerminalKey (log only)
  terminal:resize→ App.handleTerminalResize.
`process.exit` terminates the process synchronously, so every sequencing
step first checks whether an exit already happened (`thenRun`); the 80 ms
`setTimeout` exit of `TerminalManager.gracefulShutdown` is modelled as a
`scheduleExit` action plus a separate timer-fire step, which in the
single-threaded runtime can only run after the synchronous code finished.
-/

namespace SysModel

/-- Messages rendered on the presentation surface (granularity sufficient
for the claims). -/
inductive Msg
  | welcome | shutdownMsg | goodbye | errorMsg | infoMsg | keyEcho
deriving DecidableEq, Repr

/-- Observable actions of the orchestrator and terminal manager. -/
inductive Action
  | publish (k : EventBusModel.EventKind)
  | render (m : Msg)
  | grabInput
  | releaseInput
  | busCleanup
  | scheduleExit (code delay : Nat)
  | exitProcess (code : Nat)
deriving DecidableEq, Repr

/-- Combined state of `DTraderCrypto`, `TerminalManager`, the bus and the
process. -/
structure SysState where
  appRunning : Bool
  tmInitialized : Bool
  tmInputGrabbed : Bool
  busCleaned : Bool
  exitScheduled : Bool
  exited : Option Nat
  everStarted : Bool
  envDev : Bool
deriving DecidableEq, Repr

/-- Result of running a handler: next state plus emitted actions. -/
abbrev Step := SysState × List Action

/-- Sequencing that respects `process.exit`: once the process exited,
nothing further runs. -/
def thenRun (r : Step) (f : SysState → Step) : Step :=
  if r.1.exited.isSome then r
  else ((f r.1).1, r.2 ++ (f r.1).2)

/-- `TerminalManager.startKeyListener` (config.grabInput is true in the
assembly of index.ts). -/
def startKeyListener (s : SysState) : Step :=
  if s.tmInputGrabbed then (s, [])
  else ({ s with tmInputGrabbed := true }, [.grabInput])

/-- `TerminalManager.stopKeyListener`. -/
def stopKeyListener (s : SysState) : Step :=
  if s.tmInputGrabbed then ({ s with tmInputGrabbed := false }, [.releaseInput])
  else (s, [])

/-- `TerminalManager.handleAppStart`: welcome screen, key listener,
`isInitialized := true`. -/
def tmHandleAppStart (s : SysState) : Step :=
  ({ (startKeyListener s).1 with tmInitialized := true },
   .render .welcome :: (startKeyListener s).2)

/-- `DTraderCrypto.handleAppStart`: `isRunning := true`, info message. -/
def appHandleAppStart (s : SysState) : Step :=
  ({ s with appRunning := true, everStarted := true }, [.render .infoMsg])

/-- `TerminalManager.handleAppStop`: shutdown message, stop key listener. -/
def tmHandleAppStop (s : SysState) : Step :=
  ((stopKeyListener s).1, .render .shutdownMsg :: (stopKeyListener s).2)

/-- `DTraderCrypto.handleAppStop`: `isRunning := false`, info message. -/
def appHandleAppStop (s : SysState) : Step :=
  ({ s with appRunning := false }, [.render .infoMsg])

/-- `DTraderCrypto.handleAppError`: renders the error, no transition. -/
def appHandleAppError (s : SysState) : Step :=
  (s, [.render .errorMsg])

/-- `TerminalManager.gracefulShutdown`: on an uninitialized terminal it
exits immediately with code 0; otherwise it renders the shutdown message,
releases input capture if still grabbed, renders the goodbye text and
schedules `process.exit(0)` after 80 ms. -/
def tmGracefulShutdown (s : SysState) : Step :=
  if s.tmInitialized then
    ({ (stopKeyListener s).1 with exitScheduled := true },
     .render .shutdownMsg :: (stopKeyListener s).2 ++
       [.render .goodbye, .scheduleExit 0 80])
  else
    ({ s with exited := some 0 }, [.exitProcess 0])

/-- `eventBus.emitTyped('app:stop')` with the wired listeners (no listeners
once the bus was cleaned). -/
def emitAppStop (s : SysState) : Step :=
  if s.busCleaned then (s, [.publish .appStop])
  else
    thenRun (thenRun ((s, [.publish .appStop])) tmHandleAppStop)
      appHandleAppStop

/-- `eventBus.cleanup()` during shutdown. -/
def busCleanupStep (s : SysState) : Step :=
  ({ s with busCleaned := true }, [.busCleanup])

/-- `DTraderCrypto.gracefulShutdown`: guarded by `isRunning`; otherwise
publish app:stop, shut the terminal down, clean the bus. -/
def appGracefulShutdown (s : SysState) : Step :=
  if s.appRunning then
    thenRun (thenRun (emitAppStop { s with appRunning := false })
      tmGracefulShutdown) busCleanupStep
  else (s, [])

/-- `eventBus.emitTyped('terminal:exit')`: `TerminalManager.handleExit`
then `DTraderCrypto.handleExit`. -/
def emitTerminalExit (s : SysState) : Step :=
  if s.busCleaned then (s, [.publish .terminalExit])
  else
    thenRun (thenRun ((s, [.publish .terminalExit])) tmGracefulShutdown)
      appGracefulShutdown

/-- `eventBus.emitTyped('app:start')` with the wired listeners. -/
def emitAppStart (s : SysState) : Step :=
  if s.busCleaned then (s, [.publish .appStart])
  else
    thenRun (thenRun ((s, [.publish .appStart])) tmHandleAppStart)
      appHandleAppStart

/-- `eventBus.emitTyped('app:error')`. -/
def emitAppError (s : SysState) : Step :=
  if s.busCleaned then (s, [.publish .appError])
  else thenRun ((s, [.publish .appError])) appHandleAppError

/-- `eventBus.emitTyped('terminal:resize')`
(`DTraderCrypto.handleTerminalResize` renders only in development). -/
def emitTerminalResize (s : SysState) : Step :=
  if s.busCleaned then (s, [.publish .terminalResize])
  else if s.envDev then (s, [.publish .terminalResize, .render .infoMsg])
  else (s, [.publish .terminalResize])

/-- `eventBus.emitTyped('terminal:key')`
(`DTraderCrypto.handleTerminalKey` only logs). -/
def emitTerminalKey (s : SysState) : Step :=
  (s, [.publish .terminalKey])

/-- External triggers reaching the orchestrator. -/
inductive Trigger
  | start        -- DTraderCrypto.start()
  | sigint       -- process SIGINT handler
  | sigterm      -- process SIGTERM handler
  | keyCtrlX     -- TerminalManager.handleKeyPress with CTRL_X
  | keyCtrlC     -- TerminalManager.handleKeyPress with CTRL_C
  | keyOther     -- any other key
  | resize       -- terminal resize event
  | appErrorT    -- app:error published
  | uncaught     -- process uncaughtException handler
  | unhandledRej -- process unhandledRejection handler
  | timerFire    -- the pending setTimeout of tmGracefulShutdown fires
deriving DecidableEq, Repr

/-- One trigger processed to completion of its synchronous handler code. -/
def step (s : SysState) (t : Trigger) : Step :=
  match t with
  | .start => thenRun ((s, [.render .infoMsg])) emitAppStart
  | .sigint | .sigterm => emitTerminalExit s
  | .keyCtrlX | .keyCtrlC => emitTerminalExit s
  | .keyOther =>
    thenRun (emitTerminalKey s)
      (fun s1 => if s1.envDev then (s1, [.render .keyEcho]) else (s1, []))
  | .resize => emitTerminalResize s
  | .appErrorT => emitAppError s
  | .uncaught | .unhandledRej =>
    thenRun ((s, [.render .errorMsg])) appGracefulShutdown
  | .timerFire =>
    if s.exitScheduled ∧ s.exited = none then
      ({ s with exited := some 0 }, [.exitProcess 0])
    else (s, [])

/-- The lifecycle phases of spec §4.2. -/
inductive Phase
  | idle | running | stopping | stopped
deriving DecidableEq, Repr

/-- Phase abstraction: `stopped` once the process exited, `stopping` while
the deferred exit is pending (or after app:start was observed and the app
is no longer running), `running` while `isRunning`, `idle` before the first
start. -/
def phase (s : SysState) : Phase :=
  if s.exited.isSome then .stopped
  else if s.exitScheduled then .stopping
  else if s.appRunning then .running
  else if s.everStarted then .stopping
  else .idle

/-- Freshly assembled system (construction of `DTraderCrypto`), before
`start()`: nothing running, terminal not initialized, input not grabbed. -/
def initSys : SysState where
  appRunning := false
  tmInitialized := false
  tmInputGrabbed := false
  busCleaned := false
  exitScheduled := false
  exited := none
  everStarted := false
  envDev := true

/-- A state reached while running normally after `start()`. -/
def runSys : SysState where
  appRunning := true
  tmInitialized := true
  tmInputGrabbed := true
  busCleaned := false
  exitScheduled := false
  exited := none
  everStarted := true
  envDev := true

/-- C3: a second invocation of the shutdown sequence
(`DTraderCrypto.gracefulShutdown`) — after it already ran, from any state —
is a no-op (empty action trace, unchanged state), and from a running state
the single run performs release-input, bus-reset and exit-scheduling exactly
once, so the double invocation still performs each exactly once. -/
theorem gracefulShutdown_idempotent (s : SysState) :
    (appGracefulShutdown (appGracefulShutdown s).1).2 = [] ∧
    (appGracefulShutdown (appGracefulShutdown s).1).1 =
      (appGracefulShutdown s).1 ∧
    (s.appRunning = true → s.tmInitialized = true →
     s.tmInputGrabbed = true → s.exited = none →
      ((appGracefulShutdown s).2.count .releaseInput = 1 ∧
       (appGracefulShutdown s).2.count .busCleanup = 1 ∧
       (appGracefulShutdown s).2.count (.scheduleExit 0 80) = 1 ∧
       ∀ a : Action,
         ((appGracefulShutdown s).2 ++
           (appGracefulShutdown (appGracefulShutdown s).1).2).count a =
         (appGracefulShutdown s).2.count a)) := by
  obtain ⟨ar, ti, tg, bc, es, ex, ev, ed⟩ := s
  cases ar <;> cases ti <;> cases tg <;> cases bc <;> cases ex <;>
    simp [appGracefulShutdown, emitAppStop, thenRun, tmHandleAppStop,
      appHandleAppStop, tmGracefulShutdown, stopKeyListener, busCleanupStep]

/-- Witness for C3 from the concrete running state: the shutdown actions
appear once after the first call and zero additional times after the
second. -/
theorem gracefulShutdown_idempotent_witness :
    (appGracefulShutdown (appGracefulShutdown runSys).1).2 = [] ∧
    (appGracefulShutdown runSys).2.count .releaseInput = 1 ∧
    (appGracefulShutdown runSys).2.count .busCleanup = 1 ∧
    (appGracefulShutdown runSys).2.count (.scheduleExit 0 80) = 1 := by
  have h := gracefulShutdown_idempotent runSys
  have h3 := h.2.2 (by decide) (by decide) (by decide) (by decide)
  exact ⟨h.1, h3.1, h3.2.1, h3.2.2.1⟩

/-- C4 counterexample: from the idle state (constructed, never started) a
SIGINT maps to terminal:exit, reaches the terminal manager's uninitialized
branch and calls `process.exit(0)` immediately — a direct idle→stopped
transition, contradicting the claim that none exists. -/
theorem idle_exit_direct_stopped :
    phase initSys = .idle ∧
    phase (step initSys .sigint).1 = .stopped ∧
    (step initSys .sigint).2 =
      [.publish .terminalExit, .exitProcess 0] := by decide

/-- C4 amended: `idle→running` happens only via `start()`, and
`running→stopping` only via an exit trigger (SIGINT/SIGTERM/Ctrl-X/Ctrl-C,
all mapped to terminal:exit) or a fatal fault (uncaught exception,
unhandled rejection); however an exit trigger in the idle state causes a
direct idle→stopped transition (immediate `process.exit(0)` from the
uninitialized-terminal branch), so "no direct idle→stopped" does not hold. -/
theorem lifecycle_transitions (s : SysState) (t : Trigger) :
    (phase s = .idle → phase (step s t).1 = .running → t = .start) ∧
    (phase s = .running → phase (step s t).1 = .stopping →
      (t = .sigint ∨ t = .sigterm ∨ t = .keyCtrlX ∨ t = .keyCtrlC ∨
       t = .uncaught ∨ t = .unhandledRej)) := by
  obtain ⟨ar, ti, tg, bc, es, ex, ev, ed⟩ := s
  cases ex with
  | some n =>
    constructor <;> intro h <;> simp [phase] at h
  | none =>
    cases ar <;> cases ti <;> cases tg <;> cases bc <;> cases es <;>
      cases ev <;> cases ed <;> cases t <;> decide

/-- Witness for C4 (amended): from the concrete idle state, `start()` does
reach running, and the theorem pins the trigger to `start`. -/
theorem lifecycle_transitions_witness :
    phase initSys = .idle ∧
    phase (step initSys .start).1 = .running ∧
    Trigger.start = .start :=
  ⟨by decide, by decide,
   (lifecycle_transitions initSys .start).1 (by decide) (by decide)⟩

/-- The shutdown sequence run to completion: the synchronous part of
`DTraderCrypto.gracefulShutdown` followed by the deferred 80 ms timer
firing (which, single-threaded, can only happen after the synchronous part
finished). -/
def fullShutdown (s : SysState) : Step :=
  thenRun (appGracefulShutdown s) (fun s1 => step s1 .timerFire)

/-- A user-initiated exit trigger (SIGINT/SIGTERM/Ctrl-X/Ctrl-C, all mapped
to terminal:exit) run to completion including the deferred exit timer. -/
def exitTriggerRun (s : SysState) : Step :=
  thenRun (step s .sigint) (fun s1 => step s1 .timerFire)

/-- C5 counterexample: on the primary user-initiated shutdown path
(terminal:exit from the running state) `TerminalManager.handleExit` is
registered before `DTraderCrypto.handleExit`, so the terminal manager
releases input capture and schedules the exit timer BEFORE
`DTraderCrypto.gracefulShutdown` publishes app:stop — the claimed order
"publish app:stop, then release input capture" fails whenever shutdown is
entered through an exit trigger (and the exit ends up scheduled twice). -/
theorem exit_trigger_release_before_stop :
    phase runSys = .running ∧
    (exitTriggerRun runSys).2.indexOf .releaseInput <
      (exitTriggerRun runSys).2.indexOf (.publish .appStop) ∧
    (exitTriggerRun runSys).2.indexOf (.scheduleExit 0 80) <
      (exitTriggerRun runSys).2.indexOf (.publish .appStop) ∧
    (exitTriggerRun runSys).2.count (.scheduleExit 0 80) = 2 := by decide

/-- C5 amended: in every shutdown run from a running state the bus reset
precedes the process-exit signal, and the exit is deferred behind the
bounded 80 ms ≤ 100 ms grace delay after all synchronous steps.  When the
shutdown sequence `DTraderCrypto.gracefulShutdown` itself is entered first
(the fatal-fault path, or a direct call, with input still captured) the
steps do occur in the claimed order publish app:stop → release input → bus
reset → deferred exit.  But on the terminal:exit trigger path the terminal
manager's own exit handler runs first, so input capture is released and an
exit timer scheduled before app:stop is published (and a second exit timer
is scheduled afterwards). -/
theorem shutdown_order_both_paths (s : SysState)
    (h1 : s.appRunning = true) (h2 : s.tmInitialized = true)
    (h3 : s.tmInputGrabbed = true) (h4 : s.busCleaned = false)
    (h5 : s.exited = none) :
    ((fullShutdown s).2 =
      [.publish .appStop, .render .shutdownMsg, .releaseInput,
       .render .infoMsg, .render .shutdownMsg, .render .goodbye,
       .scheduleExit 0 80, .busCleanup, .exitProcess 0] ∧
     (fullShutdown s).2.indexOf (.publish .appStop) <
       (fullShutdown s).2.indexOf .releaseInput ∧
     (fullShutdown s).2.indexOf .releaseInput <
       (fullShutdown s).2.indexOf .busCleanup ∧
     (fullShutdown s).2.indexOf .busCleanup <
       (fullShutdown s).2.indexOf (.exitProcess 0) ∧
     .scheduleExit 0 80 ∈ (fullShutdown s).2) ∧
    ((exitTriggerRun s).2.indexOf .releaseInput <
       (exitTriggerRun s).2.indexOf (.publish .appStop) ∧
     (exitTriggerRun s).2.indexOf (.publish .appStop) <
       (exitTriggerRun s).2.indexOf .busCleanup ∧
     (exitTriggerRun s).2.indexOf .busCleanup <
       (exitTriggerRun s).2.indexOf (.exitProcess 0) ∧
     (exitTriggerRun s).2.count (.scheduleExit 0 80) = 2 ∧
     (exitTriggerRun s).1.exited = some 0) ∧
    80 ≤ 100 := by
  obtain ⟨ar, ti, tg, bc, es, ex, ev, ed⟩ := s
  simp only at h1 h2 h3 h4 h5
  subst h1 h2 h3 h4 h5
  have htr : (fullShutdown ⟨true, true, true, false, es, none, ev, ed⟩).2 =
      [.publish .appStop, .render .shutdownMsg, .releaseInput,
       .render .infoMsg, .render .shutdownMsg, .render .goodbye,
       .scheduleExit 0 80, .busCleanup, .exitProcess 0] := rfl
  have htr2 : (exitTriggerRun ⟨true, true, true, false, es, none, ev, ed⟩).2 =
      [.publish .terminalExit, .render .shutdownMsg, .releaseInput,
       .render .goodbye, .scheduleExit 0 80, .publish .appStop,
       .render .shutdownMsg, .render .infoMsg, .render .shutdownMsg,
       .render .goodbye, .scheduleExit 0 80, .busCleanup,
       .exitProcess 0] := rfl
  refine ⟨⟨htr, ?_, ?_, ?_, ?_⟩, ⟨?_, ?_, ?_, ?_, rfl⟩, by omega⟩ <;>
    first
    | (rw [htr]; decide)
    | (rw [htr2]; decide)

/-- Witness for the amended C5 at the concrete running state: the in-order
direct path and the release-first trigger path, both with the reset before
the deferred exit. -/
theorem shutdown_order_both_paths_witness :
    (fullShutdown runSys).2.indexOf (.publish .appStop) <
      (fullShutdown runSys).2.indexOf .releaseInput ∧
    (fullShutdown runSys).2.indexOf .busCleanup <
      (fullShutdown runSys).2.indexOf (.exitProcess 0) ∧
    (exitTriggerRun runSys).2.indexOf .releaseInput <
      (exitTriggerRun runSys).2.indexOf (.publish .appStop) ∧
    (exitTriggerRun runSys).2.indexOf .busCleanup <
      (exitTriggerRun runSys).2.indexOf (.exitProcess 0) ∧
    .scheduleExit 0 80 ∈ (fullShutdown runSys).2 := by
  have h := shutdown_order_both_paths runSys (by decide) (by decide)
    (by decide) (by decide) (by decide)
  exact ⟨h.1.2.1, h.1.2.2.2.1, h.2.1.1, h.2.1.2.2.1, h.1.2.2.2.2⟩

/-- A fatal process fault (uncaughtException/unhandledRejection handler)
run to completion including the deferred exit. -/
def fatalRun (s : SysState) : Step :=
  thenRun (step s .uncaught) (fun s1 => step s1 .timerFire)

/-- A clean user-initiated exit (Ctrl-X) run to completion. -/
def cleanExitRun (s : SysState) : Step :=
  thenRun (step s .keyCtrlX) (fun s1 => step s1 .timerFire)

/-- Whether an action signals process termination with a non-zero status. -/
def isNonzeroExit : Action → Bool
  | .exitProcess c => c != 0
  | _ => false

/-- C6 counterexample: after an uncaught exception in the running state the
process does render an error, but it terminates through
`TerminalManager.gracefulShutdown`'s `process.exit(0)` — the exit status is
0, not non-zero-equivalent as claimed; no non-zero exit is signalled
anywhere on the fatal path. -/
theorem fatal_exit_code_zero :
    (fatalRun runSys).1.exited = some 0 ∧
    Action.exitProcess 0 ∈ (fatalRun runSys).2 ∧
    (fatalRun runSys).2.all (fun a => !(isNonzeroExit a)) = true := by decide

/-- C6 amended: on a fatal fault from a running state an error message is
rendered before the exit, but the process then exits with status 0 — the
same status as a clean user-initiated exit (only the startup validation
failure in `main` exits non-zero). -/
theorem fatal_renders_error_exits_zero (s : SysState)
    (h1 : s.appRunning = true) (h2 : s.tmInitialized = true)
    (h3 : s.tmInputGrabbed = true) (h4 : s.busCleaned = false)
    (h5 : s.exited = none) :
    Action.render .errorMsg ∈ (fatalRun s).2 ∧
    (fatalRun s).2.indexOf (.render .errorMsg) <
      (fatalRun s).2.indexOf (.exitProcess 0) ∧
    (fatalRun s).1.exited = some 0 ∧
    (fatalRun s).2.all (fun a => !(isNonzeroExit a)) = true ∧
    (cleanExitRun s).1.exited = some 0 := by
  obtain ⟨ar, ti, tg, bc, es, ex, ev, ed⟩ := s
  simp only at h1 h2 h3 h4 h5
  subst h1 h2 h3 h4 h5
  have htr : (fatalRun ⟨true, true, true, false, es, none, ev, ed⟩).2 =
      [.render .errorMsg, .publish .appStop, .render .shutdownMsg,
       .releaseInput, .render .infoMsg, .render .shutdownMsg,
       .render .goodbye, .scheduleExit 0 80, .busCleanup,
       .exitProcess 0] := rfl
  refine ⟨?_, ?_, rfl, ?_, rfl⟩ <;> rw [htr] <;> decide

/-- Witness for the amended C6 at the concrete running state. -/
theorem fatal_renders_error_exits_zero_witness :
    Action.render .errorMsg ∈ (fatalRun runSys).2 ∧
    (fatalRun runSys).2.indexOf (.render .errorMsg) <
      (fatalRun runSys).2.indexOf (.exitProcess 0) ∧
    (fatalRun runSys).1.exited = some 0 ∧
    (cleanExitRun runSys).1.exited = some 0 := by
  have h := fatal_renders_error_exits_zero runSys (by decide) (by decide)
    (by decide) (by decide) (by decide)
  exact ⟨h.1, h.2.1, h.2.2.1, h.2.2.2.2⟩

end SysModel

/-!
### Accessor copy semantics

`DTraderCrypto.getConfig` returns `{ ...this.config }` and
`TerminalManager.getSessionInfo` returns `{ ...this.sessionInfo }`: a fresh
object whose fields are copied from the internal record.  JavaScript object
identity and field assignment are modelled by an explicit store of records
addressed by naturals; the spread allocates at a fresh address.
-/

namespace CopyModel

/-- `AppConfig` of index.ts. -/
structure AppConfig where
  name : String
  version : String
  environment : String
deriving DecidableEq, Repr

/-- `SessionInfo` of TerminalManager.ts.  `startTime` holds the identity of
the `Date` object: the spread copies the reference, not the `Date`'s
contents. -/
structure SessionInfo where
  id : String
  startTime : Nat
  version : String
  environment : String
deriving DecidableEq, Repr

/-- A store of records of one type, addressed by naturals; `next` is the
next fresh address. -/
structure Store (α : Type) where
  heap : Nat → α
  next : Nat

/-- Read the record at an address. -/
def Store.read {α : Type} (st : Store α) (p : Nat) : α := st.heap p

/-- Allocate a fresh record initialized to `v`. -/
def Store.alloc {α : Type} (st : Store α) (v : α) : Nat × Store α :=
  (st.next,
   { heap := fun q => if q = st.next then v else st.heap q,
     next := st.next + 1 })

/-- Assign fields of the record at address `p` (an arbitrary mutation `f`
of its field values). -/
def Store.write {α : Type} (st : Store α) (p : Nat) (f : α → α) : Store α :=
  { st with heap := fun q => if q = p then f (st.heap q) else st.heap q }

/-- The orchestrator's reference to its internal `config` record. -/
structure AppObj where
  configAddr : Nat

/-- The terminal manager's reference to its internal `sessionInfo`
record. -/
structure TmObj where
  sessionAddr : Nat

/-- `DTraderCrypto.getConfig`: `return { ...this.config }`. -/
def getConfig (a : AppObj) (st : Store AppConfig) : Nat × Store AppConfig :=
  st.alloc (st.read a.configAddr)

/-- `TerminalManager.getSessionInfo`: `return { ...this.sessionInfo }`. -/
def getSessionInfo (t : TmObj) (st : Store SessionInfo) :
    Nat × Store SessionInfo :=
  st.alloc (st.read t.sessionAddr)

/-- C9: both accessors return defensive copies: the returned record carries
the internal record's field values, any mutation of the returned record
leaves the internal record unchanged, and a subsequent call to the same
accessor still returns the original field values.  The well-formedness
hypotheses say the internal records live at already-allocated addresses. -/
theorem accessors_defensive (a : AppObj) (st : Store AppConfig)
    (f : AppConfig → AppConfig) (t : TmObj) (st2 : Store SessionInfo)
    (g : SessionInfo → SessionInfo)
    (hwf : a.configAddr < st.next) (hwf2 : t.sessionAddr < st2.next) :
    Store.read (getConfig a st).2 (getConfig a st).1 =
      Store.read st a.configAddr ∧
    Store.read (Store.write (getConfig a st).2 (getConfig a st).1 f)
      a.configAddr = Store.read st a.configAddr ∧
    Store.read
      (getConfig a (Store.write (getConfig a st).2 (getConfig a st).1 f)).2
      (getConfig a (Store.write (getConfig a st).2 (getConfig a st).1 f)).1 =
      Store.read st a.configAddr ∧
    Store.read (getSessionInfo t st2).2 (getSessionInfo t st2).1 =
      Store.read st2 t.sessionAddr ∧
    Store.read
      (Store.write (getSessionInfo t st2).2 (getSessionInfo t st2).1 g)
      t.sessionAddr = Store.read st2 t.sessionAddr ∧
    Store.read
      (getSessionInfo t
        (Store.write (getSessionInfo t st2).2 (getSessionInfo t st2).1 g)).2
      (getSessionInfo t
        (Store.write (getSessionInfo t st2).2 (getSessionInfo t st2).1 g)).1 =
      Store.read st2 t.sessionAddr := by
  have hne : a.configAddr ≠ st.next := Nat.ne_of_lt hwf
  have hne2 : t.sessionAddr ≠ st2.next := Nat.ne_of_lt hwf2
  refine ⟨?_, ?_, ?_, ?_, ?_, ?_⟩ <;>
    simp [getConfig, getSessionInfo, Store.alloc, Store.read, Store.write,
      hne, hne2]

/-- Witness for C9 at a concrete one-record store and concrete mutations of
every field. -/
theorem accessors_defensive_witness :
    Store.read
      (Store.write
        (getConfig ⟨0⟩
          ⟨fun _ => ⟨"dtrader-crypto 2.0", "2.0.0", "development"⟩, 1⟩).2
        (getConfig ⟨0⟩
          ⟨fun _ => ⟨"dtrader-crypto 2.0", "2.0.0", "development"⟩, 1⟩).1
        (fun _ => ⟨"x", "y", "z"⟩)) 0 =
      ⟨"dtrader-crypto 2.0", "2.0.0", "development"⟩ ∧
    Store.read
      (Store.write (getSessionInfo ⟨0⟩ ⟨fun _ => ⟨"A1B2", 7, "2.0.0", "development"⟩, 1⟩).2
        (getSessionInfo ⟨0⟩ ⟨fun _ => ⟨"A1B2", 7, "2.0.0", "development"⟩, 1⟩).1
        (fun _ => ⟨"Z9", 8, "0", "production"⟩)) 0 =
      ⟨"A1B2", 7, "2.0.0", "development"⟩ := by
  have h := accessors_defensive ⟨0⟩
    ⟨fun _ => ⟨"dtrader-crypto 2.0", "2.0.0", "development"⟩, 1⟩
    (fun _ => ⟨"x", "y", "z"⟩) ⟨0⟩
    ⟨fun _ => ⟨"A1B2", 7, "2.0.0", "development"⟩, 1⟩
    (fun _ => ⟨"Z9", 8, "0", "production"⟩)
    (by decide) (by decide)
  exact ⟨h.2.1, h.2.2.2.2.1⟩

end CopyModel
